import Mathlib

/-!
# Recipe service: acquisition pipeline and two-tier read cache

A shallow embedding of `src/main.go` and `src/ai.go`.

* Go strings are Lean strings (the titles handled here come out of
  `json.Unmarshal`, which only produces valid UTF-8), byte slices are lists of
  bytes, Go `int` is `Int`.
* Calls that leave the process (headless browser, HTTP, the chat-completion
  endpoint, JSON codecs, the object-store client) are fields of an environment
  record: the code is a function of what those calls answer.
* A Go function either returns, panics, or ends the process through
  `log.Fatal`; `Outcome` keeps the three apart.
-/

namespace Recipes

/-! ## Standard-library string functions used by the source -/

/-- Go `unicode.ToLower`: ASCII is handled inline, every other rune goes through the
Unicode case tables, which are the parameter `caseTable`. -/
def unicodeToLower (caseTable : Char → Char) (r : Char) : Char :=
  if r.toNat ≤ 127 then
    if 65 ≤ r.toNat ∧ r.toNat ≤ 90 then Char.ofNat (r.toNat + 32) else r
  else caseTable r

/-- Go `strings.ToLower` on a valid UTF-8 string: every rune is mapped by
`unicode.ToLower` (the ASCII fast path of the library computes the same string). -/
def stringsToLower (caseTable : Char → Char) (s : String) : String :=
  ⟨s.data.map (unicodeToLower caseTable)⟩

/-- The replacement loop of Go `strings.Replace` for a non-empty `old`: scan left to
right, replace the leftmost non-overlapping occurrences, at most `n` of them
(`none` = no limit). `fuel` bounds the number of loop steps. -/
def replaceLoop (old new : List Char) : Nat → Option Nat → List Char → List Char
  | 0, _, s => s
  | _ + 1, some 0, s => s
  | _ + 1, _, [] => []
  | fuel + 1, n, c :: cs =>
    if old.isPrefixOf (c :: cs) then
      new ++ replaceLoop old new fuel (n.map Nat.pred) ((c :: cs).drop old.length)
    else
      c :: replaceLoop old new fuel n cs

/-- The replacement loop of Go `strings.Replace` for an empty `old`: `new` is inserted
before each rune and after the last one, at most `n` times. -/
def replaceEmpty (new : List Char) : Option Nat → List Char → List Char
  | some 0, s => s
  | n, [] => if n = some 0 then [] else new
  | n, c :: cs => new ++ c :: replaceEmpty new (n.map Nat.pred) cs

/-- Go `strings.Replace(s, old, new, n)`; a negative `n` means no limit. -/
def stringsReplace (s old new : String) (n : Int) : String :=
  if old = new ∨ n = 0 then s
  else
    let limit : Option Nat := if n < 0 then none else some n.toNat
    if old.data = [] then ⟨replaceEmpty new.data limit s.data⟩
    else ⟨replaceLoop old.data new.data (s.data.length + 1) limit s.data⟩

/-- Go `strings.ReplaceAll(s, old, new)` is `strings.Replace(s, old, new, -1)`. -/
def stringsReplaceAll (s old new : String) : String :=
  stringsReplace s old new (-1)

/-- Go `unicode.IsSpace`. -/
def unicodeIsSpace (r : Char) : Bool :=
  let n := r.toNat
  (9 ≤ n ∧ n ≤ 13) ∨ n = 32 ∨ n = 133 ∨ n = 160 ∨ n = 5760 ∨ (8192 ≤ n ∧ n ≤ 8202) ∨
    n = 8232 ∨ n = 8233 ∨ n = 8239 ∨ n = 8287 ∨ n = 12288

/-- Go `strings.TrimSpace`: white space is cut off both ends. -/
def stringsTrimSpace (s : String) : String :=
  ⟨((s.data.dropWhile unicodeIsSpace).reverse.dropWhile unicodeIsSpace).reverse⟩

/-! ## Data model (`src/main.go`, `src/ai.go`) -/

/-- A byte slice. -/
abbrev Bytes := List (Fin 256)

/-- The struct `Recipe` of `src/main.go`. -/
structure Recipe where
  Category : String
  CookTime : Int
  Date : String
  Image : String
  Ingredients : List String
  Instructions : List String
  PrepTime : Int
  Servings : Int
  Title : String
  TotalTime : Int
  Link : String
  OriginalURL : String
  deriving DecidableEq, Repr

/-- The struct `Usage` of `src/ai.go`. -/
structure Usage where
  PromptTokens : Int
  CompletionTokens : Int
  TotalTokens : Int
  deriving DecidableEq, Repr

/-- The struct `Message` of `src/ai.go`. -/
structure Message where
  Role : String
  Content : String
  deriving DecidableEq, Repr

/-- The struct `Choice` of `src/ai.go`. -/
structure Choice where
  Index : Int
  Message : Message
  Logprobs : Option String
  FinishReason : String
  deriving DecidableEq, Repr

/-- The struct `Response` of `src/ai.go`. -/
structure Response where
  ID : String
  Object : String
  Created : Int
  Model : String
  SystemFingerprint : String
  Choices : List Choice
  Usage : Usage
  Title : String
  Date : String
  Image : String
  PrepTime : Int
  CookTime : Int
  TotalTime : Int
  Servings : Int
  Category : String
  Ingredients : List String
  Instructions : List String
  deriving DecidableEq, Repr

/-- How a Go call ends: it returns, it panics, or `log.Fatal` ends the process. -/
inductive Outcome (α : Type) where
  | returned (a : α)
  | panicked
  | exited
  deriving DecidableEq, Repr

/-! ## The structured-completion client (`src/ai.go`) -/

/-- The decoded content of `schema.json`, kept abstract. -/
abbrev Schema := String

/-- The struct `Client` of `src/ai.go`; `apiKey` stands for the wrapped API client. -/
structure Client where
  apiKey : String
  engine : String
  debug : Bool
  format : String
  schema : Schema
  deriving DecidableEq, Repr

/-- The request built by `Client.Prompt`. -/
structure ChatCompletionRequest where
  Model : String
  SystemContent : String
  UserContent : String
  MaxTokens : Int
  Temperature : Int
  SchemaName : String
  SchemaJSON : String
  Strict : Bool
  deriving DecidableEq, Repr

/-- The answer of the chat-completion endpoint; of each choice only the message content
is read. -/
structure ChatCompletionResponse where
  ID : String
  Object : String
  Created : Int
  Model : String
  SystemFingerprint : String
  Choices : List String
  Usage : Usage
  deriving DecidableEq, Repr

/-- What the outside world answers to the calls made by `NewClient` and `Client.Prompt`. -/
structure AIWorld where
  /-- The call `os.ReadFile("schema.json")`. -/
  readSchemaFile : Except String Bytes
  /-- The call `json.Unmarshal(data, &schema)`. -/
  unmarshalSchema : Bytes → Except String Schema
  /-- The call `json.Marshal(c.schema["schema"])`. -/
  marshalSchema : Schema → Except String String
  /-- The call `c.client.CreateChatCompletion(ctx, req)`, for the client built with the
  given API key. -/
  createChatCompletion : String → ChatCompletionRequest → Except String ChatCompletionResponse
  /-- The call `json.Unmarshal([]byte(content), &response)`. -/
  unmarshalResponse : String → Except String Response

def defaultEngine : String := "gpt-4o-mini"

/-- The function `NewClient` of `src/ai.go`. -/
def NewClient (w : AIWorld) (apiKey engine format : String) (debug : Bool) : Outcome Client :=
  let engine := if engine = "" then defaultEngine else engine
  match w.readSchemaFile with
  | .error _ => .exited
  | .ok data =>
    match w.unmarshalSchema data with
    | .error _ => .exited
    | .ok schema =>
      .returned { apiKey := apiKey, engine := engine, debug := debug, format := format,
                  schema := schema }

/-- The method `Client.Prompt` of `src/ai.go`. It returns a response or an error, and
panics when the endpoint answers without any choice (`resp.Choices[0]`). -/
def Client.Prompt (w : AIWorld) (c : Client) (prompt systemPrompt : String) (maxTokens : Int) :
    Outcome (Except String Response) :=
  match w.marshalSchema c.schema with
  | .error e => .returned (.error ("failed to marshal schema: " ++ e))
  | .ok schemaJSON =>
    let req : ChatCompletionRequest :=
      { Model := c.engine, SystemContent := systemPrompt, UserContent := prompt,
        MaxTokens := maxTokens, Temperature := 0, SchemaName := "recipe_response",
        SchemaJSON := schemaJSON, Strict := true }
    match w.createChatCompletion c.apiKey req with
    | .error e => .returned (.error e)
    | .ok resp =>
      match resp.Choices with
      | [] => .panicked
      | content :: _ =>
        match w.unmarshalResponse content with
        | .error e => .returned (.error e)
        | .ok response =>
          .returned (.ok { response with
            ID := resp.ID, Object := resp.Object, Created := resp.Created, Model := resp.Model,
            SystemFingerprint := resp.SystemFingerprint,
            Usage := { PromptTokens := resp.Usage.PromptTokens,
                       CompletionTokens := resp.Usage.CompletionTokens,
                       TotalTokens := resp.Usage.TotalTokens } })

/-! ## Object store and caches -/

/-- Value bound to key `k` in an association list (first binding). -/
def kvGet {β : Type} : List (String × β) → String → Option β
  | [], _ => none
  | (k1, v) :: m, k => if k1 = k then some v else kvGet m k

/-- Bind `k` to `v`: an existing binding is overwritten in place, a new one is added at
the end. -/
def kvPut {β : Type} : List (String × β) → String → β → List (String × β)
  | [], k, v => [(k, v)]
  | (k1, v1) :: m, k, v => if k1 = k then (k, v) :: m else (k1, v1) :: kvPut m k v

/-- Remove every binding of `k`. -/
def kvDelete {β : Type} : List (String × β) → String → List (String × β)
  | [], _ => []
  | (k1, v1) :: m, k => if k1 = k then kvDelete m k else (k1, v1) :: kvDelete m k

/-- Modelled from the spec: the content of the object store, which the spec treats as an
opaque key/value blob store with list, holding recipes and images under separate logical
prefixes. The storage client is not among the source files. -/
structure ObjectStore where
  recipes : List (String × Bytes)
  images : List (String × Bytes)
  deriving DecidableEq, Repr

/-- Modelled from the spec: the storage client returned by `NewCloudflareS3`, which is not
among the source files. Every operation may fail with a storage error; the fields say
which calls of this client fail. -/
structure CloudflareS3 where
  uploadImageErr : Option String
  uploadRecipeErr : Option String
  getRecipeErr : String → Option String
  listRecipesErr : Option String

/-- Modelled from the spec: `Put(key, bytes)` on the image prefix; a failed put writes
nothing. -/
def CloudflareS3.UploadImage (c : CloudflareS3) (store : ObjectStore) (key : String)
    (_contentType : String) (data : Bytes) : Except String ObjectStore :=
  match c.uploadImageErr with
  | some e => .error e
  | none => .ok { store with images := kvPut store.images key data }

/-- Modelled from the spec: `Put(key, bytes)` on the recipe prefix; a failed put writes
nothing. -/
def CloudflareS3.UploadRecipe (c : CloudflareS3) (store : ObjectStore) (filename : String)
    (content : Bytes) : Except String ObjectStore :=
  match c.uploadRecipeErr with
  | some e => .error e
  | none => .ok { store with recipes := kvPut store.recipes filename content }

/-- Modelled from the spec: `Get(key) -> bytes` on the recipe prefix; a missing key is a
storage error. -/
def CloudflareS3.GetRecipe (c : CloudflareS3) (store : ObjectStore) (filename : String) :
    Except String Bytes :=
  match c.getRecipeErr filename with
  | some e => .error e
  | none =>
    match kvGet store.recipes filename with
    | none => .error "NoSuchKey"
    | some content => .ok content

/-- Modelled from the spec: `List(prefix) -> []key` on the recipe prefix. -/
def CloudflareS3.ListRecipes (c : CloudflareS3) (store : ObjectStore) :
    Except String (List String) :=
  match c.listRecipesErr with
  | some e => .error e
  | none => .ok (store.recipes.map Prod.fst)

/-- An item of a `go-cache` cache: the object and its expiration instant in nanoseconds
(`0`: the item never expires). -/
structure Item (α : Type) where
  Object : α
  Expiration : Int
  deriving DecidableEq, Repr

/-- A `go-cache` cache (`github.com/patrickmn/go-cache`). -/
structure Cache (α : Type) where
  defaultExpiration : Int
  items : List (String × Item α)
  deriving DecidableEq, Repr

/-- The constant `time.Hour`, in nanoseconds. -/
def timeHour : Int := 3600000000000

/-- The constant `cache.DefaultExpiration`. -/
def DefaultExpiration : Int := 0

/-- The call `cache.New(defaultExpiration, cleanupInterval)`; the cleanup sweep only
removes items that `Get` already treats as absent. -/
def Cache.New {α : Type} (defaultExpiration : Int) : Cache α :=
  { defaultExpiration := if defaultExpiration = 0 then -1 else defaultExpiration, items := [] }

/-- The method `Cache.Get` at clock reading `now`. -/
def Cache.Get {α : Type} (c : Cache α) (now : Int) (k : String) : Option α :=
  match kvGet c.items k with
  | none => none
  | some item =>
    if item.Expiration > 0 ∧ now > item.Expiration then none else some item.Object

/-- The method `Cache.Set` at clock reading `now`. -/
def Cache.Set {α : Type} (c : Cache α) (now : Int) (k : String) (x : α) (d : Int) : Cache α :=
  let d := if d = DefaultExpiration then c.defaultExpiration else d
  let e := if d > 0 then now + d else 0
  { c with items := kvPut c.items k { Object := x, Expiration := e } }

/-- The method `Cache.Delete`. -/
def Cache.Delete {α : Type} (c : Cache α) (k : String) : Cache α :=
  { c with items := kvDelete c.items k }

/-- The server state: the object store and the two global caches of `src/main.go`. -/
structure Server where
  store : ObjectStore
  recipeCache : Cache Bytes
  recipesCache : Cache (List Recipe)
  deriving DecidableEq, Repr

/-- The state set up by `main`: both caches freshly created. -/
def Server.start (store : ObjectStore) : Server :=
  { store := store, recipeCache := Cache.New (30 * 24 * timeHour),
    recipesCache := Cache.New (1 * timeHour) }

/-! ## The acquisition pipeline (`getRecipe`, `src/main.go`) -/

/-- The result of `page.MustElement("img").Attribute("src")`. -/
inductive ImgLookup where
  /-- No element: `MustElement` panics. -/
  | noElement
  /-- The call `Attribute` returns `(nil, err)`. -/
  | attrError (err : String)
  /-- The element has no `src`: `Attribute` returns `(nil, nil)`. -/
  | noAttr
  /-- The attribute value. -/
  | src (imageContent : String)
  deriving DecidableEq, Repr

/-- A page loaded in the headless browser. -/
structure Page where
  html : String
  img : ImgLookup
  deriving DecidableEq, Repr

/-- A parsed document: `text` is what `doc.Text()` gives once the `script` and `style`
elements are removed. -/
structure Doc where
  text : String
  deriving DecidableEq, Repr

/-- An `*http.Response`: `Body` is what `io.ReadAll(resp.Body)` gives. -/
structure HttpResponse where
  StatusCode : Int
  Status : String
  Body : Except String Bytes

/-- What the outside world answers to the calls made by `getRecipe`. -/
structure World where
  /-- Lines 232 to 248: launch, connect, open the page, navigate, wait and read the
  HTML; `none` when one of the `Must` calls panics. -/
  browse : String → Option Page
  /-- The call `goquery.NewDocumentFromReader`. -/
  newDocument : String → Except String Doc
  /-- The call `http.Get`; an error comes with a nil response. -/
  httpGet : String → Except String HttpResponse
  /-- The call `NewCloudflareS3()`. -/
  newS3 : Except String CloudflareS3
  /-- The call `os.Getenv("OPENAI_KEY")`. -/
  openaiKey : String
  ai : AIWorld

def promptTemplate : String :=
  "Extract the recipe details from the provided text, including name/title, description, instructions, ingredients, original_url, featuredImage, and category. Category is either breakfast, dinner or baking. Ensure all steps and ingredients are fully covered. "

def systemPrompt : String :=
  "You assist in extracting recipe data from web pages and output in json format."

/-- The call `copier.Copy(&responseRecipe, &response)` on a zero `Recipe`: the fields the
two structs share by name are copied, `Link` and `OriginalURL` stay empty. -/
def copyResponse (response : Response) : Recipe :=
  { Category := response.Category, CookTime := response.CookTime, Date := response.Date,
    Image := response.Image, Ingredients := response.Ingredients,
    Instructions := response.Instructions, PrepTime := response.PrepTime,
    Servings := response.Servings, Title := response.Title, TotalTime := response.TotalTime,
    Link := "", OriginalURL := "" }

/-- The function `getRecipe` of `src/main.go`, run on the store content `store`; the
second component is the store content when the call ends. -/
def getRecipe (caseTable : Char → Char) (w : World) (url : String) (store : ObjectStore) :
    Outcome (Recipe × String) × ObjectStore :=
  match w.browse url with
  | none => (.panicked, store)
  | some page =>
  match w.newDocument page.html with
  | .error _ => (.exited, store)
  | .ok doc =>
  match page.img with
  | .noElement => (.panicked, store)
  -- the error is logged; the nil `imageContent` is dereferenced on line 263
  | .attrError _ => (.panicked, store)
  | .noAttr => (.panicked, store)
  | .src imageContent =>
  match w.httpGet imageContent with
  -- the error is logged; `resp` is nil and `resp.Body` panics on line 267
  | .error _ => (.panicked, store)
  | .ok resp =>
  -- a status other than 200 is logged
  match resp.Body with
  | .error _ => (.exited, store)
  | .ok imageData =>
  match w.newS3 with
  | .error _ => (.exited, store)
  | .ok s3Client =>
  let text := doc.text
  let cleanedText := stringsTrimSpace text
  let prompt := promptTemplate ++ cleanedText
  let maxTokens : Int := 16384
  let format := "text"
  match NewClient w.ai w.openaiKey "gpt-4o-mini-2024-07-18" format false with
  | .panicked => (.panicked, store)
  | .exited => (.exited, store)
  | .returned ai =>
  match ai.Prompt w.ai prompt systemPrompt maxTokens with
  | .panicked => (.panicked, store)
  | .exited => (.exited, store)
  -- the error is logged; `response` is nil and `response.Category` panics on line 308
  | .returned (.error _) => (.panicked, store)
  | .returned (.ok response) =>
  let responseRecipe := copyResponse response
  let title := response.Title
  let filename := stringsToLower caseTable (stringsReplaceAll title " " "-") ++ ".json"
  let imageFilename :=
    "images/" ++ stringsToLower caseTable (stringsReplaceAll title " " "-") ++ ".jpg"
  match s3Client.UploadImage store imageFilename "image/jpeg" imageData with
  | .error _ => (.exited, store)
  | .ok store1 =>
  let responseRecipe := { responseRecipe with OriginalURL := url }
  let responseRecipe :=
    { responseRecipe with Image := "https://cookingimage.bronson.dev/" ++ imageFilename }
  (.returned (responseRecipe, filename), store1)

/-! ## The HTTP handlers (`main`, `src/main.go`) -/

/-- What a handler sends back. -/
inductive Reply where
  /-- The reply `c.JSON(status, gin.H)` with an `error` message. -/
  | error (status : Nat) (msg : String)
  /-- The reply `c.JSON(200, ...)` of a successful save, with the filename. -/
  | saved (filename : String)
  /-- The reply `c.Data(200, "application/json", content)`. -/
  | data (content : Bytes)
  /-- The reply `c.JSON(200, recipes)`. -/
  | recipes (list : List Recipe)
  /-- A panic in the handler, turned into status 500 by the recovery middleware of
  `gin.Default()`. -/
  | recovered
  /-- No reply: `log.Fatal` ended the process. -/
  | processExit
  deriving DecidableEq, Repr

/-- What the outside world answers during one `POST /save-recipe`. -/
structure SaveEnv where
  /-- The call `c.ShouldBindJSON(&request)`: the URL, or `none` on a binding error. -/
  bindURL : Option String
  world : World
  /-- The call `json.Marshal(recipe)`. -/
  marshal : Recipe → Except String Bytes
  /-- The call `NewCloudflareS3()` of the handler. -/
  newS3 : Except String CloudflareS3

/-- What the outside world answers during one `GET /get-recipe/:name` or
`GET /get-recipes`. -/
structure ReadEnv where
  /-- Clock reading when the cache is consulted. -/
  now : Int
  /-- The call `NewCloudflareS3()` of the handler. -/
  newS3 : Except String CloudflareS3
  /-- The call `json.Unmarshal(content, &recipe)`. -/
  unmarshal : Bytes → Except String Recipe
  /-- Clock reading when the cache is filled. -/
  later : Int

/-- Line 89 of `src/main.go`: the handler of `POST /save-recipe` sets `recipe.Link`. -/
def assignLink (recipe : Recipe) (filename : String) : Recipe :=
  { recipe with
    Link := "/recipes/" ++ recipe.Category ++ "/" ++ stringsReplace filename ".json" "" 1 }

/-- The handler of `POST /save-recipe`. -/
def saveRecipeHandler (caseTable : Char → Char) (env : SaveEnv) (st : Server) :
    Reply × Server :=
  match env.bindURL with
  | none => (.error 400 "URL is required", st)
  | some url =>
  match getRecipe caseTable env.world url st.store with
  | (.panicked, store) => (.recovered, { st with store := store })
  | (.exited, store) => (.processExit, { st with store := store })
  | (.returned (recipe, filename), store) =>
  let recipe := assignLink recipe filename
  match env.marshal recipe with
  | .error _ => (.error 500 "Failed to marshal recipe to JSON", { st with store := store })
  | .ok jsonContent =>
  match env.newS3 with
  | .error _ => (.error 500 "Failed to initialize S3 client", { st with store := store })
  | .ok s3Client =>
  match s3Client.UploadRecipe store filename jsonContent with
  | .error _ => (.error 500 "Failed to upload to R2", { st with store := store })
  | .ok store1 =>
  (.saved filename,
    { store := store1,
      recipeCache := st.recipeCache.Delete filename,
      recipesCache := st.recipesCache.Delete "all_recipes" })

/-- The handler of `GET /get-recipe/:name`. -/
def getRecipeHandler (env : ReadEnv) (recipeName : String) (st : Server) : Reply × Server :=
  let filename := recipeName ++ ".json"
  match st.recipeCache.Get env.now filename with
  | some cachedContent => (.data cachedContent, st)
  | none =>
  match env.newS3 with
  | .error _ => (.error 500 "Failed to initialize S3 client", st)
  | .ok s3Client =>
  match s3Client.GetRecipe st.store filename with
  | .error _ => (.error 500 "Failed to fetch recipe", st)
  | .ok content =>
  (.data content,
    { st with recipeCache := st.recipeCache.Set env.later filename content DefaultExpiration })

/-- The filter loop of `GET /get-recipes` (lines 162 to 167 and 215 to 220). -/
def filterRecipes (category : String) (allRecipes : List Recipe) : List Recipe :=
  allRecipes.foldl
    (fun filteredRecipes recipe =>
      if recipe.Category = category then filteredRecipes ++ [recipe] else filteredRecipes)
    []

/-- The read loop of `GET /get-recipes` (lines 191 to 208). -/
def readRecipes (s3Client : CloudflareS3) (store : ObjectStore)
    (unmarshal : Bytes → Except String Recipe) (recipes : List String) : List Recipe :=
  recipes.foldl
    (fun allRecipes filename =>
      match s3Client.GetRecipe store filename with
      | .error _ => allRecipes
      | .ok content =>
        match unmarshal content with
        | .error _ => allRecipes
        | .ok recipe => allRecipes ++ [recipe])
    []

/-- The handler of `GET /get-recipes`. -/
def getRecipesHandler (env : ReadEnv) (category : String) (st : Server) : Reply × Server :=
  match st.recipesCache.Get env.now "all_recipes" with
  | some allRecipes =>
    if category ≠ "" then (.recipes (filterRecipes category allRecipes), st)
    else (.recipes allRecipes, st)
  | none =>
  match env.newS3 with
  | .error _ => (.error 500 "Failed to initialize S3 client", st)
  | .ok s3Client =>
  match s3Client.ListRecipes st.store with
  | .error _ => (.error 500 "Failed to list recipes", st)
  | .ok recipes =>
  let allRecipes := readRecipes s3Client st.store env.unmarshal recipes
  let st1 := { st with
    recipesCache := st.recipesCache.Set env.later "all_recipes" allRecipes (1 * timeHour) }
  if category ≠ "" then (.recipes (filterRecipes category allRecipes), st1)
  else (.recipes allRecipes, st1)

/-! ## Definitions used to state the properties -/

/-- The recipe a listed filename contributes to the full list: the decoded content when
both the fetch and the JSON decoding succeed, nothing otherwise. -/
def fetchDecode (s3Client : CloudflareS3) (store : ObjectStore)
    (unmarshal : Bytes → Except String Recipe) (filename : String) : Option Recipe :=
  (s3Client.GetRecipe store filename).toOption.bind (fun content => (unmarshal content).toOption)

/-- The slug `getRecipe` derives from a title (lines 311 and 315): spaces are replaced
first, the result is lower-cased. -/
def slug (caseTable : Char → Char) (title : String) : String :=
  stringsToLower caseTable (stringsReplaceAll title " " "-")

/-- The slug in the words of the specification: the lower-cased title with every space
replaced by a hyphen. -/
def slugSpec (caseTable : Char → Char) (title : String) : String :=
  stringsReplaceAll (stringsToLower caseTable title) " " "-"

/-- The prompt `getRecipe` sends for a parsed document (lines 286 to 290). -/
def extractionPrompt (doc : Doc) : String :=
  promptTemplate ++ stringsTrimSpace doc.text

/-! ## Sample inputs -/

def pie : Recipe :=
  { Category := "baking", CookTime := 45, Date := "2024-05-01", Image := "", Ingredients := ["apples"],
    Instructions := ["bake"], PrepTime := 15, Servings := 8, Title := "Apple Pie", TotalTime := 60,
    Link := "/recipes/baking/apple-pie", OriginalURL := "https://example.com/pie" }

def soup : Recipe :=
  { Category := "dinner", CookTime := 30, Date := "2024-05-02", Image := "", Ingredients := ["leeks"],
    Instructions := ["simmer"], PrepTime := 10, Servings := 4, Title := "Leek Soup", TotalTime := 40,
    Link := "/recipes/dinner/leek-soup", OriginalURL := "https://example.com/soup" }

def stew : Recipe :=
  { Category := "dinner", CookTime := 90, Date := "2024-05-03", Image := "", Ingredients := ["beef"],
    Instructions := ["braise"], PrepTime := 20, Servings := 6, Title := "Beef Stew", TotalTime := 110,
    Link := "/recipes/dinner/beef-stew", OriginalURL := "https://example.com/stew" }

/-- A store with four recipe objects; the third one does not hold valid JSON. -/
def sampleStore : ObjectStore :=
  { recipes := [("apple-pie.json", [1]), ("leek-soup.json", [2]), ("broken.json", [0]),
                ("beef-stew.json", [3])],
    images := [] }

/-- A storage client on which every call succeeds. -/
def sampleS3 : CloudflareS3 :=
  { uploadImageErr := none, uploadRecipeErr := none, getRecipeErr := fun _ => none,
    listRecipesErr := none }

/-- A storage client on which fetching `leek-soup.json` fails. -/
def flakyS3 : CloudflareS3 :=
  { sampleS3 with
    getRecipeErr := fun filename => if filename = "leek-soup.json" then some "timeout" else none }

def sampleUnmarshal (content : Bytes) : Except String Recipe :=
  if content = [1] then .ok pie
  else if content = [2] then .ok soup
  else if content = [3] then .ok stew
  else .error "invalid character"

def sampleReadEnv : ReadEnv :=
  { now := 1000, newS3 := .ok sampleS3, unmarshal := sampleUnmarshal, later := 1005 }

def flakyReadEnv : ReadEnv :=
  { now := 1000, newS3 := .ok flakyS3, unmarshal := sampleUnmarshal, later := 1005 }

/-- A server whose collection cache holds a full list. -/
def warmServer : Server :=
  { Server.start sampleStore with
    recipesCache := (Cache.New (1 * timeHour)).Set 900 "all_recipes" [pie, soup, stew] (1 * timeHour) }

/-- A completion result with the given title and category. -/
def sampleResponse (title category : String) : Response :=
  { ID := "", Object := "", Created := 0, Model := "", SystemFingerprint := "", Choices := [],
    Usage := { PromptTokens := 0, CompletionTokens := 0, TotalTokens := 0 },
    Title := title, Date := "2024-05-01", Image := "https://example.com/model-image.png",
    PrepTime := 15, CookTime := 45, TotalTime := 60, Servings := 8, Category := category,
    Ingredients := ["apples"], Instructions := ["bake"] }

/-- A completion service that answers every request with the given title and category. -/
def sampleAI (title category : String) : AIWorld :=
  { readSchemaFile := .ok [],
    unmarshalSchema := fun _ => .ok "schema",
    marshalSchema := fun _ => .ok "schema",
    createChatCompletion := fun _ _ =>
      .ok { ID := "chatcmpl-1", Object := "chat.completion", Created := 1, Model := "gpt-4o-mini",
            SystemFingerprint := "fp", Choices := ["content"],
            Usage := { PromptTokens := 10, CompletionTokens := 20, TotalTokens := 30 } },
    unmarshalResponse := fun _ => .ok (sampleResponse title category) }

/-- A completion service whose call fails. -/
def failingAI : AIWorld :=
  { sampleAI "Apple Pie" "baking" with
    createChatCompletion := fun _ _ => .error "status code: 429" }

/-- A world in which every step of the pipeline succeeds, with the given answer to the
image download. -/
def sampleWorld (title category : String) (image : Except String HttpResponse) : World :=
  { browse := fun _ => some { html := "<html></html>", img := .src "https://example.com/pie.jpg" },
    newDocument := fun _ => .ok { text := "  Apple Pie. Bake it.  " },
    httpGet := fun _ => image,
    newS3 := .ok sampleS3,
    openaiKey := "sk-test",
    ai := sampleAI title category }

/-- An image download answered with status 200. -/
def imageOK : Except String HttpResponse :=
  .ok { StatusCode := 200, Status := "200 OK", Body := .ok [255, 216, 255] }

/-- An image download answered with status 404. -/
def imageNotFound : Except String HttpResponse :=
  .ok { StatusCode := 404, Status := "404 Not Found", Body := .ok [60, 104, 49, 62] }

/-- An image download that fails in transport: `http.Get` returns an error. -/
def imageUnreachable : Except String HttpResponse :=
  .error "dial tcp: lookup example.com: no such host"

/-- A stand-in for `json.Marshal` that writes out the bytes of `Link`. -/
def sampleMarshal (recipe : Recipe) : Except String Bytes :=
  .ok (recipe.Link.data.map (fun ch => Fin.ofNat ch.toNat))

def sampleSaveEnv (title category : String) (image : Except String HttpResponse) : SaveEnv :=
  { bindURL := some "https://example.com/pie",
    world := sampleWorld title category image,
    marshal := sampleMarshal,
    newS3 := .ok sampleS3 }

/-- A server whose caches both hold entries written before the save. -/
def staleServer : Server :=
  { store := sampleStore,
    recipeCache := (Cache.New (30 * 24 * timeHour)).Set 900 "apple-pie.json" [1] DefaultExpiration,
    recipesCache := (Cache.New (1 * timeHour)).Set 900 "all_recipes" [pie, soup, stew] (1 * timeHour) }

/-- A save request during which the completion call fails. -/
def failingSaveEnv : SaveEnv :=
  { sampleSaveEnv "Apple Pie" "baking" imageOK with
    world := { sampleWorld "Apple Pie" "baking" imageOK with ai := failingAI } }

/-- A save request during which the recipe upload fails. -/
def uploadFailsEnv : SaveEnv :=
  { sampleSaveEnv "Apple Pie" "baking" imageOK with
    newS3 := .ok { sampleS3 with uploadRecipeErr := some "503 Service Unavailable" } }

/-- A save request whose completion returns a title containing `.json`. -/
def dottedSaveEnv : SaveEnv :=
  sampleSaveEnv "Config.json Cake" "baking" imageOK

/-- The server state after the sample save request on `staleServer`. -/
def savedServer : Server :=
  (saveRecipeHandler id (sampleSaveEnv "Apple Pie" "baking" imageOK) staleServer).2

/-! # Properties -/

/-! ## Association lists and caches -/

theorem kvGet_kvPut_same {β : Type} (m : List (String × β)) (k : String) (v : β) :
    kvGet (kvPut m k v) k = some v := by
  induction m with
  | nil => simp [kvPut, kvGet]
  | cons p m ih =>
    obtain ⟨k1, v1⟩ := p
    by_cases h : k1 = k
    · simp [kvPut, kvGet, h]
    · simp [kvPut, kvGet, h, ih]

theorem kvGet_kvDelete_same {β : Type} (m : List (String × β)) (k : String) :
    kvGet (kvDelete m k) k = none := by
  induction m with
  | nil => simp [kvDelete, kvGet]
  | cons p m ih =>
    obtain ⟨k1, v1⟩ := p
    by_cases h : k1 = k
    · simp [kvDelete, h, ih]
    · simp [kvDelete, kvGet, h, ih]

theorem Cache.Get_Delete_same {α : Type} (c : Cache α) (now : Int) (k : String) :
    (c.Delete k).Get now k = none := by
  simp [Cache.Get, Cache.Delete, kvGet_kvDelete_same]

theorem Cache.Set_items_of_pos {α : Type} (c : Cache α) (now : Int) (k : String) (x : α)
    (d : Int) (hd : 0 < d) :
    kvGet (c.Set now k x d).items k = some { Object := x, Expiration := now + d } := by
  have h0 : d ≠ DefaultExpiration := by
    simp only [DefaultExpiration]
    omega
  simp [Cache.Set, kvGet_kvPut_same, h0, hd]

theorem Cache.Get_Set_of_pos {α : Type} (c : Cache α) (now t : Int) (k : String) (x : α)
    (d : Int) (hd : 0 < d) (ht : t ≤ now + d) :
    (c.Set now k x d).Get t k = some x := by
  have hle : ¬ (now + d > 0 ∧ t > now + d) := by
    intro h
    omega
  simp only [Cache.Get, Cache.Set_items_of_pos c now k x d hd]
  simp [hle]

/-! ## The loops of the listing handler -/

theorem filterRecipes_foldl (category : String) (allRecipes acc : List Recipe) :
    allRecipes.foldl
      (fun filteredRecipes recipe =>
        if recipe.Category = category then filteredRecipes ++ [recipe] else filteredRecipes)
      acc
    = acc ++ allRecipes.filter (fun r => decide (r.Category = category)) := by
  induction allRecipes generalizing acc with
  | nil => simp
  | cons r rs ih =>
    by_cases h : r.Category = category
    · simp [List.foldl_cons, ih, h]
    · simp [List.foldl_cons, ih, h]

theorem filterRecipes_eq_filter (category : String) (allRecipes : List Recipe) :
    filterRecipes category allRecipes
      = allRecipes.filter (fun r => decide (r.Category = category)) := by
  simp [filterRecipes, filterRecipes_foldl]

theorem readRecipes_foldl (s3Client : CloudflareS3) (store : ObjectStore)
    (unmarshal : Bytes → Except String Recipe) (recipes : List String) (acc : List Recipe) :
    recipes.foldl
      (fun allRecipes filename =>
        match s3Client.GetRecipe store filename with
        | .error _ => allRecipes
        | .ok content =>
          match unmarshal content with
          | .error _ => allRecipes
          | .ok recipe => allRecipes ++ [recipe])
      acc
    = acc ++ recipes.filterMap (fetchDecode s3Client store unmarshal) := by
  induction recipes generalizing acc with
  | nil => simp
  | cons f fs ih =>
    rw [List.foldl_cons, ih]
    cases hg : s3Client.GetRecipe store f with
    | error e => simp [List.filterMap_cons, fetchDecode, hg, Except.toOption]
    | ok content =>
      cases hu : unmarshal content with
      | error e => simp [List.filterMap_cons, fetchDecode, hg, hu, Except.toOption]
      | ok recipe => simp [List.filterMap_cons, fetchDecode, hg, hu, Except.toOption]

theorem readRecipes_eq_filterMap (s3Client : CloudflareS3) (store : ObjectStore)
    (unmarshal : Bytes → Except String Recipe) (recipes : List String) :
    readRecipes s3Client store unmarshal recipes
      = recipes.filterMap (fetchDecode s3Client store unmarshal) := by
  simp [readRecipes, readRecipes_foldl]

/-! ## Listing -/

/-- C1. For the full recipe list `L` of a `/get-recipes` call (the cached list on a cache
hit; on a miss, the list read from the store), the reply holds exactly the recipes of `L`
whose category equals `c`, once each and in their order, when `c` is non-empty, and `L`
itself when `c` is empty. -/
theorem getRecipes_listing_filter (env : ReadEnv) (c : String) (st : Server) (L : List Recipe)
    (hL : st.recipesCache.Get env.now "all_recipes" = some L ∨
      (st.recipesCache.Get env.now "all_recipes" = none ∧
        ∃ s3Client recipes, env.newS3 = .ok s3Client ∧
          s3Client.ListRecipes st.store = .ok recipes ∧
          L = readRecipes s3Client st.store env.unmarshal recipes)) :
    (getRecipesHandler env c st).1 =
      .recipes (if c = "" then L else L.filter (fun r => decide (r.Category = c))) := by
  rcases hL with hhit | ⟨hmiss, s3Client, recipes, hs3, hlist, rfl⟩
  · by_cases hc : c = ""
    · simp [getRecipesHandler, hhit, hc]
    · simp [getRecipesHandler, hhit, hc, filterRecipes_eq_filter]
  · by_cases hc : c = ""
    · simp [getRecipesHandler, hmiss, hs3, hlist, hc]
    · simp [getRecipesHandler, hmiss, hs3, hlist, hc, filterRecipes_eq_filter]

theorem getRecipes_listing_filter_witness :
    ((warmServer.recipesCache.Get sampleReadEnv.now "all_recipes" = some [pie, soup, stew] ∨
      (warmServer.recipesCache.Get sampleReadEnv.now "all_recipes" = none ∧
        ∃ s3Client recipes, sampleReadEnv.newS3 = .ok s3Client ∧
          s3Client.ListRecipes warmServer.store = .ok recipes ∧
          [pie, soup, stew] =
            readRecipes s3Client warmServer.store sampleReadEnv.unmarshal recipes))
      ∧ (getRecipesHandler sampleReadEnv "dinner" warmServer).1 = .recipes [soup, stew])
    ∧ (((Server.start sampleStore).recipesCache.Get flakyReadEnv.now "all_recipes"
            = some [pie, stew] ∨
        ((Server.start sampleStore).recipesCache.Get flakyReadEnv.now "all_recipes" = none ∧
          ∃ s3Client recipes, flakyReadEnv.newS3 = .ok s3Client ∧
            s3Client.ListRecipes (Server.start sampleStore).store = .ok recipes ∧
            [pie, stew] =
              readRecipes s3Client (Server.start sampleStore).store flakyReadEnv.unmarshal
                recipes))
      ∧ (getRecipesHandler flakyReadEnv "" (Server.start sampleStore)).1
          = .recipes [pie, stew]) :=
  ⟨⟨Or.inl (by decide),
      getRecipes_listing_filter sampleReadEnv "dinner" warmServer [pie, soup, stew]
        (Or.inl (by decide))⟩,
    ⟨Or.inr ⟨by decide, flakyS3, _, rfl, rfl, by decide⟩,
      getRecipes_listing_filter flakyReadEnv "" (Server.start sampleStore) [pie, stew]
        (Or.inr ⟨by decide, flakyS3, _, rfl, rfl, by decide⟩)⟩⟩

/-- C2. A `/get-recipes` call that misses the collection cache and lists the store
successfully leaves under `all_recipes` the unfiltered list: one recipe for every listed
filename whose fetch and JSON decoding both succeed, in listing order, the other filenames
skipped. The item expires one hour after it was set and is served until then; the state
left behind is the same for every category `c`. -/
theorem getRecipes_miss_caches_unfiltered (env : ReadEnv) (c : String) (st : Server)
    (s3Client : CloudflareS3) (recipes : List String)
    (hmiss : st.recipesCache.Get env.now "all_recipes" = none)
    (hs3 : env.newS3 = .ok s3Client)
    (hlist : s3Client.ListRecipes st.store = .ok recipes) :
    kvGet (getRecipesHandler env c st).2.recipesCache.items "all_recipes"
        = some { Object := recipes.filterMap (fetchDecode s3Client st.store env.unmarshal),
                 Expiration := env.later + 1 * timeHour }
    ∧ (∀ t : Int, t ≤ env.later + 1 * timeHour →
        (getRecipesHandler env c st).2.recipesCache.Get t "all_recipes"
          = some (recipes.filterMap (fetchDecode s3Client st.store env.unmarshal)))
    ∧ (∀ c2 : String, (getRecipesHandler env c2 st).2 = (getRecipesHandler env c st).2)
    ∧ (getRecipesHandler env c st).2.store = st.store
    ∧ (getRecipesHandler env c st).2.recipeCache = st.recipeCache := by
  have hstate : ∀ c1 : String, (getRecipesHandler env c1 st).2 =
      { st with recipesCache := (st.recipesCache.Set env.later "all_recipes"
          (recipes.filterMap (fetchDecode s3Client st.store env.unmarshal)) (1 * timeHour)) } := by
    intro c1
    by_cases hc : c1 = ""
    · simp [getRecipesHandler, hmiss, hs3, hlist, hc, readRecipes_eq_filterMap]
    · simp [getRecipesHandler, hmiss, hs3, hlist, hc, readRecipes_eq_filterMap]
  refine ⟨?_, ?_, ?_, ?_, ?_⟩
  · rw [hstate c, Cache.Set_items_of_pos _ _ _ _ _ (by decide)]
  · intro t ht
    rw [hstate c]
    exact Cache.Get_Set_of_pos _ _ _ _ _ _ (by decide) ht
  · intro c2
    rw [hstate c2, hstate c]
  · rw [hstate c]
  · rw [hstate c]

theorem getRecipes_miss_caches_unfiltered_witness :
    ((Server.start sampleStore).recipesCache.Get flakyReadEnv.now "all_recipes" = none
      ∧ flakyReadEnv.newS3 = .ok flakyS3
      ∧ flakyS3.ListRecipes (Server.start sampleStore).store
          = .ok ["apple-pie.json", "leek-soup.json", "broken.json", "beef-stew.json"])
    ∧ kvGet (getRecipesHandler flakyReadEnv "baking" (Server.start sampleStore)).2.recipesCache.items
        "all_recipes" = some { Object := [pie, stew], Expiration := 1005 + 1 * timeHour } :=
  ⟨⟨by decide, rfl, rfl⟩,
    (getRecipes_miss_caches_unfiltered flakyReadEnv "baking" (Server.start sampleStore) flakyS3
      ["apple-pie.json", "leek-soup.json", "broken.json", "beef-stew.json"]
      (by decide) rfl rfl).1⟩

/-! ## Slugs -/

theorem replaceLoop_space_hyphen (l : List Char) :
    ∀ fuel : Nat, l.length < fuel →
      replaceLoop [' '] ['-'] fuel none l = l.map (fun c => if c = ' ' then '-' else c) := by
  induction l with
  | nil =>
    intro fuel hf
    cases fuel with
    | zero => simp at hf
    | succ fuel => simp [replaceLoop]
  | cons c cs ih =>
    intro fuel hf
    cases fuel with
    | zero => simp at hf
    | succ fuel =>
      have hlt : cs.length < fuel := by
        simp only [List.length_cons] at hf
        omega
      by_cases hc : c = ' '
      · subst hc
        simp [replaceLoop, List.isPrefixOf, ih fuel hlt]
      · have hc2 : ¬ (' ' = c) := fun h => hc h.symm
        simp [replaceLoop, List.isPrefixOf, hc, hc2, ih fuel hlt]

theorem stringsReplaceAll_space_hyphen (s : String) :
    stringsReplaceAll s " " "-" = ⟨s.data.map (fun c => if c = ' ' then '-' else c)⟩ := by
  have hne : (" " : String) ≠ "-" := by decide
  have hd : (" " : String).data = [' '] := rfl
  have hd2 : ("-" : String).data = ['-'] := rfl
  have hloop := replaceLoop_space_hyphen s.data (s.data.length + 1) (Nat.lt_succ_self _)
  simp [stringsReplaceAll, stringsReplace, hne, hd, hd2]
  exact congrArg String.mk hloop

theorem unicodeToLower_hyphen (caseTable : Char → Char) :
    unicodeToLower caseTable '-' = '-' := by
  simp [unicodeToLower]

theorem unicodeToLower_space (caseTable : Char → Char) :
    unicodeToLower caseTable ' ' = ' ' := by
  simp [unicodeToLower]

theorem unicodeToLower_ne_space (caseTable : Char → Char)
    (htable : ∀ r : Char, 127 < r.toNat → caseTable r ≠ ' ') (c : Char) (hc : c ≠ ' ') :
    unicodeToLower caseTable c ≠ ' ' := by
  unfold unicodeToLower
  split
  · split
    · rename_i hup
      obtain ⟨h1, h2⟩ := hup
      generalize c.toNat = n at h1 h2
      interval_cases n <;> decide
    · exact hc
  · rename_i hascii
    exact htable c (by omega)

/-- Lower-casing and replacing spaces by hyphens commute, as soon as the case table maps
no rune above ASCII to a space. -/
theorem slug_eq_slugSpec (caseTable : Char → Char)
    (htable : ∀ r : Char, 127 < r.toNat → caseTable r ≠ ' ') (title : String) :
    slug caseTable title = slugSpec caseTable title := by
  simp only [slug, slugSpec, stringsReplaceAll_space_hyphen, stringsToLower, List.map_map]
  congr 1
  apply List.map_congr_left
  intro c _
  by_cases hc : c = ' '
  · subst hc
    simp [unicodeToLower_hyphen, unicodeToLower_space]
  · simp [hc, unicodeToLower_ne_space caseTable htable c hc]

theorem not_prefix_json (c : Char) (cs : List Char)
    (h : ¬ ['.', 'j', 's', 'o', 'n'] <:+: (c :: cs)) :
    List.isPrefixOf ['.', 'j', 's', 'o', 'n'] (c :: (cs ++ ['.', 'j', 's', 'o', 'n']))
      = false := by
  match cs, h with
  | [], _ => simp [List.isPrefixOf]
  | [a], _ => simp [List.isPrefixOf]
  | [a, b], _ => simp [List.isPrefixOf]
  | [a, b, d], _ => simp [List.isPrefixOf]
  | a :: b :: d :: e :: rest, h =>
    by_contra hp
    simp [List.isPrefixOf] at hp
    obtain ⟨h1, h2, h3, h4, h5⟩ := hp
    subst h1 h2 h3 h4 h5
    exact h ⟨[], rest, by simp⟩

theorem replaceLoop_json_suffix (l : List Char) :
    ∀ fuel : Nat, l.length + 1 < fuel → ¬ ['.', 'j', 's', 'o', 'n'] <:+: l →
      replaceLoop ['.', 'j', 's', 'o', 'n'] [] fuel (some 1) (l ++ ['.', 'j', 's', 'o', 'n'])
        = l := by
  induction l with
  | nil =>
    intro fuel hf _
    match fuel, hf with
    | fuel + 2, _ => simp [replaceLoop, List.isPrefixOf]
  | cons c cs ih =>
    intro fuel hf hn
    match fuel, hf with
    | fuel + 1, hf =>
      have hlt : cs.length + 1 < fuel := by
        simp only [List.length_cons] at hf
        omega
      have hn2 : ¬ ['.', 'j', 's', 'o', 'n'] <:+: cs := by
        intro hin
        exact hn (List.IsInfix.trans hin (List.suffix_cons c cs).isInfix)
      have hp := not_prefix_json c cs hn
      have hstep : replaceLoop ['.', 'j', 's', 'o', 'n'] [] (fuel + 1) (some 1)
          (c :: (cs ++ ['.', 'j', 's', 'o', 'n']))
          = if List.isPrefixOf ['.', 'j', 's', 'o', 'n'] (c :: (cs ++ ['.', 'j', 's', 'o', 'n']))
            then [] ++ replaceLoop ['.', 'j', 's', 'o', 'n'] [] fuel ((some 1).map Nat.pred)
              ((c :: (cs ++ ['.', 'j', 's', 'o', 'n'])).drop ['.', 'j', 's', 'o', 'n'].length)
            else c :: replaceLoop ['.', 'j', 's', 'o', 'n'] [] fuel (some 1)
              (cs ++ ['.', 'j', 's', 'o', 'n']) := rfl
      rw [List.cons_append, hstep, hp, ih fuel hlt hn2]
      rfl

/-- Removing the first `.json` of `s + ".json"` gives back `s` when `s` itself does not
contain `.json`. -/
theorem stringsReplace_json_suffix (s : String) (h : ¬ (".json" : String).data <:+: s.data) :
    stringsReplace (s ++ ".json") ".json" "" 1 = s := by
  have hne : (".json" : String) ≠ "" := by decide
  have hd : (".json" : String).data = ['.', 'j', 's', 'o', 'n'] := rfl
  have hd2 : ("" : String).data = [] := rfl
  rw [hd] at h
  have hloop := replaceLoop_json_suffix s.data (s.data.length + 5 + 1) (by omega) h
  simp [stringsReplace, hne, hd, hd2]
  exact congrArg String.mk hloop

/-! ## The pipeline -/

/-- When `getRecipe` returns, every step before the return succeeded, and the returned
recipe, the filename and the store are the ones built on lines 303 to 323. -/
theorem getRecipe_returned (caseTable : Char → Char) (w : World) (url : String)
    (store store1 : ObjectStore) (recipe : Recipe) (filename : String)
    (h : getRecipe caseTable w url store = (.returned (recipe, filename), store1)) :
    ∃ page doc imageContent resp imageData s3Client ai response,
      w.browse url = some page ∧ w.newDocument page.html = .ok doc ∧
      page.img = .src imageContent ∧ w.httpGet imageContent = .ok resp ∧
      resp.Body = .ok imageData ∧ w.newS3 = .ok s3Client ∧
      NewClient w.ai w.openaiKey "gpt-4o-mini-2024-07-18" "text" false = .returned ai ∧
      ai.Prompt w.ai (extractionPrompt doc) systemPrompt 16384 = .returned (.ok response) ∧
      s3Client.UploadImage store ("images/" ++ slug caseTable response.Title ++ ".jpg")
        "image/jpeg" imageData = .ok store1 ∧
      filename = slug caseTable response.Title ++ ".json" ∧
      recipe = { copyResponse response with
        OriginalURL := url,
        Image := "https://cookingimage.bronson.dev/" ++
          ("images/" ++ slug caseTable response.Title ++ ".jpg") } := by
  unfold getRecipe at h
  cases hb : w.browse url with
  | none => simp [hb] at h
  | some page =>
  cases hd : w.newDocument page.html with
  | error e => simp [hb, hd] at h
  | ok doc =>
  cases hi : page.img with
  | noElement => simp [hb, hd, hi] at h
  | attrError e => simp [hb, hd, hi] at h
  | noAttr => simp [hb, hd, hi] at h
  | src imageContent =>
  cases hg : w.httpGet imageContent with
  | error e => simp [hb, hd, hi, hg] at h
  | ok resp =>
  cases hr : resp.Body with
  | error e => simp [hb, hd, hi, hg, hr] at h
  | ok imageData =>
  cases hs : w.newS3 with
  | error e => simp [hb, hd, hi, hg, hr, hs] at h
  | ok s3Client =>
  cases hn : NewClient w.ai w.openaiKey "gpt-4o-mini-2024-07-18" "text" false with
  | panicked => simp [hb, hd, hi, hg, hr, hs, hn] at h
  | exited => simp [hb, hd, hi, hg, hr, hs, hn] at h
  | returned ai =>
  cases hp : ai.Prompt w.ai (extractionPrompt doc) systemPrompt 16384 with
  | panicked => simp [hb, hd, hi, hg, hr, hs, hn, extractionPrompt] at h hp; simp [hp] at h
  | exited => simp [hb, hd, hi, hg, hr, hs, hn, extractionPrompt] at h hp; simp [hp] at h
  | returned res =>
  cases res with
  | error e => simp [hb, hd, hi, hg, hr, hs, hn, extractionPrompt] at h hp; simp [hp] at h
  | ok response =>
  cases hu : s3Client.UploadImage store ("images/" ++ slug caseTable response.Title ++ ".jpg")
      "image/jpeg" imageData with
  | error e =>
    simp [hb, hd, hi, hg, hr, hs, hn, extractionPrompt, slug] at h hp hu
    simp [hp, hu] at h
  | ok store2 =>
    simp [hb, hd, hi, hg, hr, hs, hn, extractionPrompt, slug] at h hp hu
    simp [hp, hu] at h
    obtain ⟨⟨h1, h2⟩, h3⟩ := h
    refine ⟨page, doc, imageContent, resp, imageData, s3Client, ai, response, rfl, hd, hi, hg,
      hr, rfl, rfl, ?_, ?_, ?_, ?_⟩
    · simpa [extractionPrompt] using hp
    · simpa [slug, h3] using hu
    · simp [slug, h2]
    · simp [slug, ← h1]

/-- A call of `getRecipe` that does not return ends in a panic or in `log.Fatal`, and has
written nothing to the store. -/
theorem getRecipe_cases (caseTable : Char → Char) (w : World) (url : String)
    (store : ObjectStore) :
    getRecipe caseTable w url store = (.panicked, store) ∨
    getRecipe caseTable w url store = (.exited, store) ∨
    ∃ (recipe : Recipe) (filename : String) (store1 : ObjectStore),
      getRecipe caseTable w url store = (.returned (recipe, filename), store1) := by
  cases hb : w.browse url with
  | none => simp [getRecipe, hb]
  | some page =>
  cases hd : w.newDocument page.html with
  | error e => simp [getRecipe, hb, hd]
  | ok doc =>
  cases hi : page.img with
  | noElement => simp [getRecipe, hb, hd, hi]
  | attrError e => simp [getRecipe, hb, hd, hi]
  | noAttr => simp [getRecipe, hb, hd, hi]
  | src imageContent =>
  cases hg : w.httpGet imageContent with
  | error e => simp [getRecipe, hb, hd, hi, hg]
  | ok resp =>
  cases hr : resp.Body with
  | error e => simp [getRecipe, hb, hd, hi, hg, hr]
  | ok imageData =>
  cases hs : w.newS3 with
  | error e => simp [getRecipe, hb, hd, hi, hg, hr, hs]
  | ok s3Client =>
  cases hn : NewClient w.ai w.openaiKey "gpt-4o-mini-2024-07-18" "text" false with
  | panicked => simp [getRecipe, hb, hd, hi, hg, hr, hs, hn]
  | exited => simp [getRecipe, hb, hd, hi, hg, hr, hs, hn]
  | returned ai =>
  cases hp : ai.Prompt w.ai (promptTemplate ++ stringsTrimSpace doc.text) systemPrompt 16384 with
  | panicked => simp [getRecipe, hb, hd, hi, hg, hr, hs, hn, hp]
  | exited => simp [getRecipe, hb, hd, hi, hg, hr, hs, hn, hp]
  | returned res =>
  cases res with
  | error e => simp [getRecipe, hb, hd, hi, hg, hr, hs, hn, hp]
  | ok response =>
  cases hu : s3Client.UploadImage store
      ("images/" ++ stringsToLower caseTable (stringsReplaceAll response.Title " " "-") ++ ".jpg")
      "image/jpeg" imageData with
  | error e => simp [getRecipe, hb, hd, hi, hg, hr, hs, hn, hp, hu]
  | ok store2 => simp [getRecipe, hb, hd, hi, hg, hr, hs, hn, hp, hu]

/-- When every step succeeds, `getRecipe` returns; the status code of the image download
plays no part. -/
theorem getRecipe_of_steps (caseTable : Char → Char) (w : World) (url : String)
    (store store1 : ObjectStore) (page : Page) (doc : Doc) (imageContent : String)
    (resp : HttpResponse) (imageData : Bytes) (s3Client : CloudflareS3) (ai : Client)
    (response : Response)
    (hb : w.browse url = some page) (hd : w.newDocument page.html = .ok doc)
    (hi : page.img = .src imageContent) (hg : w.httpGet imageContent = .ok resp)
    (hr : resp.Body = .ok imageData) (hs : w.newS3 = .ok s3Client)
    (hn : NewClient w.ai w.openaiKey "gpt-4o-mini-2024-07-18" "text" false = .returned ai)
    (hp : ai.Prompt w.ai (extractionPrompt doc) systemPrompt 16384 = .returned (.ok response))
    (hu : s3Client.UploadImage store ("images/" ++ slug caseTable response.Title ++ ".jpg")
      "image/jpeg" imageData = .ok store1) :
    getRecipe caseTable w url store =
      (.returned ({ copyResponse response with
          OriginalURL := url,
          Image := "https://cookingimage.bronson.dev/" ++
            ("images/" ++ slug caseTable response.Title ++ ".jpg") },
        slug caseTable response.Title ++ ".json"), store1) := by
  simp only [extractionPrompt] at hp
  simp only [slug] at hu
  simp [getRecipe, hb, hd, hi, hg, hr, hs, hn, hp, hu, slug]

/-- C9. In a run whose completion call returns an error, `getRecipe` returns nothing to
the handler and leaves the store as it was; the handler replies with a recovered panic or
the process exits, nothing is uploaded and the whole server state is unchanged. When the
run reaches the completion call, it ends in the panic of line 308. -/
theorem completion_error_aborts (caseTable : Char → Char) (env : SaveEnv) (st : Server)
    (url : String) (page : Page) (doc : Doc) (ai : Client) (e : String)
    (hbind : env.bindURL = some url)
    (hb : env.world.browse url = some page)
    (hd : env.world.newDocument page.html = .ok doc)
    (hn : NewClient env.world.ai env.world.openaiKey "gpt-4o-mini-2024-07-18" "text" false
      = .returned ai)
    (hp : ai.Prompt env.world.ai (extractionPrompt doc) systemPrompt 16384
      = .returned (.error e)) :
    (∀ r, (getRecipe caseTable env.world url st.store).1 ≠ .returned r)
    ∧ (getRecipe caseTable env.world url st.store).2 = st.store
    ∧ ((saveRecipeHandler caseTable env st).1 = .recovered ∨
        (saveRecipeHandler caseTable env st).1 = .processExit)
    ∧ (saveRecipeHandler caseTable env st).2 = st
    ∧ (∀ (imageContent : String) (resp : HttpResponse) (imageData : Bytes)
        (s3Client : CloudflareS3),
        page.img = .src imageContent → env.world.httpGet imageContent = .ok resp →
        resp.Body = .ok imageData → env.world.newS3 = .ok s3Client →
        getRecipe caseTable env.world url st.store = (.panicked, st.store) ∧
        saveRecipeHandler caseTable env st = (.recovered, st)) := by
  have hnot : ∀ (recipe : Recipe) (filename : String) (store1 : ObjectStore),
      getRecipe caseTable env.world url st.store ≠ (.returned (recipe, filename), store1) := by
    intro recipe filename store1 h
    obtain ⟨page2, doc2, -, -, -, -, ai2, response, hb2, hd2, -, -, -, -, hn2, hp2, -, -, -⟩ :=
      getRecipe_returned caseTable env.world url st.store store1 recipe filename h
    rw [hb] at hb2
    cases hb2
    rw [hd] at hd2
    cases hd2
    rw [hn] at hn2
    cases hn2
    rw [hp] at hp2
    cases hp2
  have hst : ({ st with store := st.store } : Server) = st := rfl
  have hcases := getRecipe_cases caseTable env.world url st.store
  refine ⟨?_, ?_, ?_, ?_, ?_⟩
  · intro r hr
    rcases hcases with h | h | ⟨recipe, filename, store1, h⟩
    · rw [h] at hr
      cases hr
    · rw [h] at hr
      cases hr
    · exact hnot recipe filename store1 h
  · rcases hcases with h | h | ⟨recipe, filename, store1, h⟩
    · rw [h]
    · rw [h]
    · exact absurd h (hnot recipe filename store1)
  · rcases hcases with h | h | ⟨recipe, filename, store1, h⟩
    · left
      simp [saveRecipeHandler, hbind, h]
    · right
      simp [saveRecipeHandler, hbind, h]
    · exact absurd h (hnot recipe filename store1)
  · rcases hcases with h | h | ⟨recipe, filename, store1, h⟩
    · simp [saveRecipeHandler, hbind, h]
    · simp [saveRecipeHandler, hbind, h]
    · exact absurd h (hnot recipe filename store1)
  · intro imageContent resp imageData s3Client hi hg hr hs
    have hp1 := hp
    simp only [extractionPrompt] at hp1
    have hg1 : getRecipe caseTable env.world url st.store = (.panicked, st.store) := by
      simp [getRecipe, hb, hd, hi, hg, hr, hs, hn, hp1]
    exact ⟨hg1, by simp [saveRecipeHandler, hbind, hg1]⟩

theorem completion_error_aborts_witness :
    (failingSaveEnv.bindURL = some "https://example.com/pie"
      ∧ failingSaveEnv.world.browse "https://example.com/pie"
          = some { html := "<html></html>", img := .src "https://example.com/pie.jpg" }
      ∧ failingSaveEnv.world.newDocument "<html></html>" = .ok { text := "  Apple Pie. Bake it.  " }
      ∧ NewClient failingSaveEnv.world.ai failingSaveEnv.world.openaiKey
          "gpt-4o-mini-2024-07-18" "text" false
          = .returned { apiKey := "sk-test", engine := "gpt-4o-mini-2024-07-18", debug := false,
                        format := "text", schema := "schema" }
      ∧ Client.Prompt failingSaveEnv.world.ai
          { apiKey := "sk-test", engine := "gpt-4o-mini-2024-07-18", debug := false,
            format := "text", schema := "schema" }
          (extractionPrompt { text := "  Apple Pie. Bake it.  " }) systemPrompt 16384
          = .returned (.error "status code: 429"))
    ∧ getRecipe id failingSaveEnv.world "https://example.com/pie" staleServer.store
        = (.panicked, staleServer.store)
    ∧ saveRecipeHandler id failingSaveEnv staleServer = (.recovered, staleServer) :=
  ⟨⟨rfl, rfl, rfl, rfl, rfl⟩,
    (completion_error_aborts id failingSaveEnv staleServer "https://example.com/pie"
      { html := "<html></html>", img := .src "https://example.com/pie.jpg" }
      { text := "  Apple Pie. Bake it.  " }
      { apiKey := "sk-test", engine := "gpt-4o-mini-2024-07-18", debug := false,
        format := "text", schema := "schema" }
      "status code: 429" rfl rfl rfl rfl rfl).2.2.2.2
      "https://example.com/pie.jpg"
      { StatusCode := 200, Status := "200 OK", Body := .ok [255, 216, 255] }
      [255, 216, 255] sampleS3 rfl rfl rfl rfl⟩

/-- C5. When `getRecipe` returns, the completion returned a title `t`, the filename is
`slug(t) + ".json"` and the image was uploaded under `"images/" + slug(t) + ".jpg"`, where
`slug(t)` is the lower-cased title with spaces replaced by hyphens, the two steps taken in
either order. Any other run whose completion returns the same title yields the same
filename. The case table of the Unicode library is assumed to map no rune above ASCII to
a space. -/
theorem getRecipe_filename_of_title (caseTable : Char → Char) (w : World) (url : String)
    (store store1 : ObjectStore) (recipe : Recipe) (filename : String)
    (htable : ∀ r : Char, 127 < r.toNat → caseTable r ≠ ' ')
    (h : getRecipe caseTable w url store = (.returned (recipe, filename), store1)) :
    ∃ (ai : Client) (doc : Doc) (response : Response) (imageData : Bytes),
      ai.Prompt w.ai (extractionPrompt doc) systemPrompt 16384 = .returned (.ok response) ∧
      filename = slugSpec caseTable response.Title ++ ".json" ∧
      store1 = { store with images :=
        (kvPut store.images ("images/" ++ slugSpec caseTable response.Title ++ ".jpg")
          imageData) } ∧
      slugSpec caseTable response.Title
        = stringsToLower caseTable (stringsReplaceAll response.Title " " "-") ∧
      ∀ (w2 : World) (url2 : String) (store2 store3 : ObjectStore) (recipe2 : Recipe)
        (filename2 : String),
        getRecipe caseTable w2 url2 store2 = (.returned (recipe2, filename2), store3) →
        recipe2.Title = response.Title → filename2 = filename := by
  obtain ⟨page, doc, imageContent, resp, imageData, s3Client, ai, response, -, -, -, -, -, -, -,
    hp, hu, hf, hr⟩ := getRecipe_returned caseTable w url store store1 recipe filename h
  refine ⟨ai, doc, response, imageData, hp, ?_, ?_, ?_, ?_⟩
  · rw [hf, slug_eq_slugSpec caseTable htable]
  · rw [← slug_eq_slugSpec caseTable htable]
    cases hue : s3Client.uploadImageErr with
    | some e => simp [CloudflareS3.UploadImage, hue] at hu
    | none =>
      simp only [CloudflareS3.UploadImage, hue, Except.ok.injEq] at hu
      exact hu.symm
  · rw [← slug_eq_slugSpec caseTable htable]
    rfl
  · intro w2 url2 store2 store3 recipe2 filename2 h2 ht
    obtain ⟨-, -, -, -, -, -, -, response2, -, -, -, -, -, -, -, -, -, hf2, hr2⟩ :=
      getRecipe_returned caseTable w2 url2 store2 store3 recipe2 filename2 h2
    have ht2 : response2.Title = response.Title := by
      rw [← ht, hr2]
      rfl
    rw [hf, hf2, ht2]

theorem getRecipe_filename_of_title_witness :
    ((∀ r : Char, 127 < r.toNat → id r ≠ ' ')
      ∧ getRecipe id (sampleWorld "Apple Pie" "baking" imageOK) "https://example.com/pie" sampleStore
          = (.returned ({ copyResponse (sampleResponse "Apple Pie" "baking") with
                OriginalURL := "https://example.com/pie",
                Image := "https://cookingimage.bronson.dev/images/apple-pie.jpg" },
              "apple-pie.json"),
            { sampleStore with images := [("images/apple-pie.jpg", [255, 216, 255])] }))
    ∧ ∃ (ai : Client) (doc : Doc) (response : Response) (imageData : Bytes),
      Client.Prompt (sampleWorld "Apple Pie" "baking" imageOK).ai ai (extractionPrompt doc)
          systemPrompt 16384 = .returned (.ok response) ∧
      "apple-pie.json" = slugSpec id response.Title ++ ".json" ∧
      ({ sampleStore with images := [("images/apple-pie.jpg", [255, 216, 255])] } : ObjectStore)
        = { sampleStore with images :=
            (kvPut sampleStore.images ("images/" ++ slugSpec id response.Title ++ ".jpg")
              imageData) } ∧
      slugSpec id response.Title = stringsToLower id (stringsReplaceAll response.Title " " "-") ∧
      ∀ (w2 : World) (url2 : String) (store2 store3 : ObjectStore) (recipe2 : Recipe)
        (filename2 : String),
        getRecipe id w2 url2 store2 = (.returned (recipe2, filename2), store3) →
        recipe2.Title = response.Title → filename2 = "apple-pie.json" :=
  have htable : ∀ r : Char, 127 < r.toNat → id r ≠ ' ' := by
    intro r hr heq
    change r = ' ' at heq
    subst heq
    exact absurd hr (by decide)
  ⟨⟨htable, by decide⟩,
    getRecipe_filename_of_title id (sampleWorld "Apple Pie" "baking" imageOK)
      "https://example.com/pie" sampleStore
      { sampleStore with images := [("images/apple-pie.jpg", [255, 216, 255])] }
      { copyResponse (sampleResponse "Apple Pie" "baking") with
        OriginalURL := "https://example.com/pie",
        Image := "https://cookingimage.bronson.dev/images/apple-pie.jpg" }
      "apple-pie.json" htable (by decide)⟩

/-- C10. When `getRecipe` returns for the input URL `u`, the completion returned a result
`r`, the recipe has `OriginalURL = u` and
`Image = "https://cookingimage.bronson.dev/images/" + slug(r.Title) + ".jpg"`, and any
other run whose completion returns the same title yields the same `Image`. -/
theorem getRecipe_derived_fields (caseTable : Char → Char) (w : World) (url : String)
    (store store1 : ObjectStore) (recipe : Recipe) (filename : String)
    (h : getRecipe caseTable w url store = (.returned (recipe, filename), store1)) :
    ∃ (ai : Client) (doc : Doc) (response : Response),
      ai.Prompt w.ai (extractionPrompt doc) systemPrompt 16384 = .returned (.ok response) ∧
      recipe.Title = response.Title ∧
      recipe.OriginalURL = url ∧
      recipe.Image
        = "https://cookingimage.bronson.dev/images/" ++ slug caseTable response.Title ++ ".jpg" ∧
      ∀ (w2 : World) (url2 : String) (store2 store3 : ObjectStore) (recipe2 : Recipe)
        (filename2 : String),
        getRecipe caseTable w2 url2 store2 = (.returned (recipe2, filename2), store3) →
        recipe2.Title = response.Title → recipe2.Image = recipe.Image := by
  have himg : ∀ t : String, "https://cookingimage.bronson.dev/" ++ ("images/" ++ t ++ ".jpg")
      = "https://cookingimage.bronson.dev/images/" ++ t ++ ".jpg" := by
    intro t
    have hlit : ("https://cookingimage.bronson.dev/images/" : String)
        = "https://cookingimage.bronson.dev/" ++ "images/" := by decide
    rw [hlit, String.append_assoc, String.append_assoc, String.append_assoc]
  obtain ⟨page, doc, imageContent, resp, imageData, s3Client, ai, response, -, -, -, -, -, -, -,
    hp, hu, hf, hr⟩ := getRecipe_returned caseTable w url store store1 recipe filename h
  refine ⟨ai, doc, response, hp, ?_, ?_, ?_, ?_⟩
  · rw [hr]
    rfl
  · rw [hr]
  · rw [hr]
    exact himg _
  · intro w2 url2 store2 store3 recipe2 filename2 h2 ht
    obtain ⟨-, -, -, -, -, -, -, response2, -, -, -, -, -, -, -, -, -, hf2, hr2⟩ :=
      getRecipe_returned caseTable w2 url2 store2 store3 recipe2 filename2 h2
    have ht2 : response2.Title = response.Title := by
      rw [← ht, hr2]
      rfl
    rw [hr, hr2, ht2]

theorem getRecipe_derived_fields_witness :
    getRecipe id (sampleWorld "Apple Pie" "baking" imageNotFound) "https://example.com/pie"
        sampleStore
      = (.returned ({ copyResponse (sampleResponse "Apple Pie" "baking") with
            OriginalURL := "https://example.com/pie",
            Image := "https://cookingimage.bronson.dev/images/apple-pie.jpg" },
          "apple-pie.json"),
        { sampleStore with images := [("images/apple-pie.jpg", [60, 104, 49, 62])] })
    ∧ ∃ (ai : Client) (doc : Doc) (response : Response),
      Client.Prompt (sampleWorld "Apple Pie" "baking" imageNotFound).ai ai (extractionPrompt doc)
          systemPrompt 16384 = .returned (.ok response) ∧
      "Apple Pie" = response.Title ∧
      "https://example.com/pie" = "https://example.com/pie" ∧
      "https://cookingimage.bronson.dev/images/apple-pie.jpg"
        = "https://cookingimage.bronson.dev/images/" ++ slug id response.Title ++ ".jpg" ∧
      ∀ (w2 : World) (url2 : String) (store2 store3 : ObjectStore) (recipe2 : Recipe)
        (filename2 : String),
        getRecipe id w2 url2 store2 = (.returned (recipe2, filename2), store3) →
        recipe2.Title = response.Title →
        recipe2.Image = "https://cookingimage.bronson.dev/images/apple-pie.jpg" :=
  ⟨by decide,
    getRecipe_derived_fields id (sampleWorld "Apple Pie" "baking" imageNotFound)
      "https://example.com/pie" sampleStore
      { sampleStore with images := [("images/apple-pie.jpg", [60, 104, 49, 62])] }
      { copyResponse (sampleResponse "Apple Pie" "baking") with
        OriginalURL := "https://example.com/pie",
        Image := "https://cookingimage.bronson.dev/images/apple-pie.jpg" }
      "apple-pie.json" (by decide)⟩

/-! ## Image download -/

/-- A transport error of the image download makes `getRecipe` panic: the nil response is
dereferenced on line 267. -/
theorem getRecipe_image_transport_error (caseTable : Char → Char) (w : World) (url : String)
    (store : ObjectStore) (page : Page) (doc : Doc) (imageContent e : String)
    (hb : w.browse url = some page) (hd : w.newDocument page.html = .ok doc)
    (hi : page.img = .src imageContent) (hg : w.httpGet imageContent = .error e) :
    getRecipe caseTable w url store = (.panicked, store) := by
  simp [getRecipe, hb, hd, hi, hg]

/-- C8, at the failing input. The page has a hero image and every other step succeeds.
When the image download is answered with status 404, `getRecipe` returns and the recipe is
saved; when the download fails in transport, `getRecipe` panics, the handler replies with
the recovered panic, and neither recipe nor image is stored. -/
theorem image_transport_error_panics :
    (saveRecipeHandler id (sampleSaveEnv "Apple Pie" "baking" imageNotFound) staleServer).1
        = .saved "apple-pie.json"
    ∧ getRecipe id (sampleWorld "Apple Pie" "baking" imageUnreachable) "https://example.com/pie"
        sampleStore = (.panicked, sampleStore)
    ∧ saveRecipeHandler id (sampleSaveEnv "Apple Pie" "baking" imageUnreachable) staleServer
        = (.recovered, staleServer) := by
  decide

/-! ## The save handler -/

/-- C6, at the failing input. The completion returns the title `Config.json Cake` and the
category `baking`: the slug is `config.json-cake`, the recipe is stored under
`config.json-cake.json`, and line 89 removes the first `.json` of the filename, not its
suffix, so the link is `/recipes/baking/config-cake.json` and not
`/recipes/baking/config.json-cake`. -/
theorem link_drops_first_json :
    slug id "Config.json Cake" = "config.json-cake"
    ∧ (saveRecipeHandler id dottedSaveEnv staleServer).1 = .saved "config.json-cake.json"
    ∧ (∃ recipe store1,
        getRecipe id dottedSaveEnv.world "https://example.com/pie" staleServer.store
          = (.returned (recipe, "config.json-cake.json"), store1)
        ∧ recipe.Category = "baking"
        ∧ (assignLink recipe "config.json-cake.json").Link = "/recipes/baking/config-cake.json"
        ∧ (assignLink recipe "config.json-cake.json").Link
            ≠ "/recipes/" ++ recipe.Category ++ "/" ++ slug id "Config.json Cake"
        ∧ (sampleMarshal (assignLink recipe "config.json-cake.json")).toOption
            = kvGet (saveRecipeHandler id dottedSaveEnv staleServer).2.store.recipes
                "config.json-cake.json") := by
  refine ⟨by decide, by decide, _, _, rfl, ?_⟩
  decide

/-- The link is `/recipes/{category}/{slug}` whenever the slug does not contain `.json`. -/
theorem link_of_slug_without_json (recipe : Recipe) (slugOfTitle : String)
    (h : ¬ (".json" : String).data <:+: slugOfTitle.data) :
    (assignLink recipe (slugOfTitle ++ ".json")).Link
      = "/recipes/" ++ recipe.Category ++ "/" ++ slugOfTitle := by
  simp [assignLink, stringsReplace_json_suffix slugOfTitle h]

/-- C7. When `getRecipe` has returned and a later step fails (JSON marshalling, the
storage client, or the recipe upload), the handler replies with status 500, the recipes of
the store are those `getRecipe` left, which are those before the request, and both caches
are as they were. -/
theorem save_failure_keeps_state (caseTable : Char → Char) (env : SaveEnv) (st : Server)
    (url : String) (recipe : Recipe) (filename : String) (store1 : ObjectStore)
    (hbind : env.bindURL = some url)
    (hget : getRecipe caseTable env.world url st.store = (.returned (recipe, filename), store1))
    (hfail : (∃ e, env.marshal (assignLink recipe filename) = .error e) ∨
      (∃ e, env.newS3 = .error e) ∨
      (∃ s3Client e, env.newS3 = .ok s3Client ∧ s3Client.uploadRecipeErr = some e)) :
    (∃ msg, (saveRecipeHandler caseTable env st).1 = .error 500 msg)
    ∧ (saveRecipeHandler caseTable env st).2.store = store1
    ∧ (saveRecipeHandler caseTable env st).2.store.recipes = st.store.recipes
    ∧ kvGet (saveRecipeHandler caseTable env st).2.store.recipes filename
        = kvGet st.store.recipes filename
    ∧ (saveRecipeHandler caseTable env st).2.recipeCache = st.recipeCache
    ∧ (saveRecipeHandler caseTable env st).2.recipesCache = st.recipesCache := by
  have hrec : store1.recipes = st.store.recipes := by
    obtain ⟨-, -, -, -, imageData, s3Client, -, response, -, -, -, -, -, -, -, -, hu, -, -⟩ :=
      getRecipe_returned caseTable env.world url st.store store1 recipe filename hget
    cases hue : s3Client.uploadImageErr with
    | some e => simp [CloudflareS3.UploadImage, hue] at hu
    | none =>
      simp only [CloudflareS3.UploadImage, hue, Except.ok.injEq] at hu
      rw [← hu]
  have key : ∃ msg, saveRecipeHandler caseTable env st
      = (.error 500 msg, { st with store := store1 }) := by
    cases hm : env.marshal (assignLink recipe filename) with
    | error e =>
      exact ⟨"Failed to marshal recipe to JSON", by simp [saveRecipeHandler, hbind, hget, hm]⟩
    | ok jsonContent =>
      cases hs : env.newS3 with
      | error e =>
        exact ⟨"Failed to initialize S3 client", by
          simp [saveRecipeHandler, hbind, hget, hm, hs]⟩
      | ok s3Client =>
        rcases hfail with ⟨e, he⟩ | ⟨e, he⟩ | ⟨s3Client2, e, hs2, he⟩
        · rw [hm] at he
          cases he
        · rw [hs] at he
          cases he
        · rw [hs] at hs2
          cases hs2
          exact ⟨"Failed to upload to R2", by
            simp [saveRecipeHandler, hbind, hget, hm, hs, CloudflareS3.UploadRecipe, he]⟩
  obtain ⟨msg, hmsg⟩ := key
  refine ⟨⟨msg, by rw [hmsg]⟩, by rw [hmsg], by rw [hmsg]; exact hrec, ?_, by rw [hmsg],
    by rw [hmsg]⟩
  rw [hmsg]
  exact congrArg (fun m => kvGet m filename) hrec

theorem save_failure_keeps_state_witness :
    (uploadFailsEnv.bindURL = some "https://example.com/pie"
      ∧ getRecipe id uploadFailsEnv.world "https://example.com/pie" staleServer.store
          = (.returned ({ copyResponse (sampleResponse "Apple Pie" "baking") with
                OriginalURL := "https://example.com/pie",
                Image := "https://cookingimage.bronson.dev/images/apple-pie.jpg" },
              "apple-pie.json"),
            { sampleStore with images := [("images/apple-pie.jpg", [255, 216, 255])] })
      ∧ ∃ s3Client e, uploadFailsEnv.newS3 = .ok s3Client ∧ s3Client.uploadRecipeErr = some e)
    ∧ (∃ msg, (saveRecipeHandler id uploadFailsEnv staleServer).1 = .error 500 msg)
    ∧ (saveRecipeHandler id uploadFailsEnv staleServer).2.store.recipes
        = staleServer.store.recipes
    ∧ (saveRecipeHandler id uploadFailsEnv staleServer).2.recipeCache = staleServer.recipeCache
    ∧ (saveRecipeHandler id uploadFailsEnv staleServer).2.recipesCache
        = staleServer.recipesCache :=
  have h := save_failure_keeps_state id uploadFailsEnv staleServer "https://example.com/pie"
    { copyResponse (sampleResponse "Apple Pie" "baking") with
      OriginalURL := "https://example.com/pie",
      Image := "https://cookingimage.bronson.dev/images/apple-pie.jpg" }
    "apple-pie.json"
    { sampleStore with images := [("images/apple-pie.jpg", [255, 216, 255])] }
    rfl (by decide) (Or.inr (Or.inr ⟨_, "503 Service Unavailable", rfl, rfl⟩))
  ⟨⟨rfl, by decide, _, "503 Service Unavailable", rfl, rfl⟩, h.1, h.2.2.1, h.2.2.2.2.1,
    h.2.2.2.2.2⟩

/-- The handler replies that the recipe was saved exactly when every step up to the
recipe upload succeeded; the state it leaves has the uploaded store and both caches with
the keys deleted. -/
theorem saveRecipeHandler_saved (caseTable : Char → Char) (env : SaveEnv) (st st1 : Server)
    (F : String) (h : saveRecipeHandler caseTable env st = (.saved F, st1)) :
    ∃ (url : String) (recipe : Recipe) (store store1 : ObjectStore) (jsonContent : Bytes)
      (s3Client : CloudflareS3),
      env.bindURL = some url ∧
      getRecipe caseTable env.world url st.store = (.returned (recipe, F), store) ∧
      env.marshal (assignLink recipe F) = .ok jsonContent ∧
      env.newS3 = .ok s3Client ∧
      s3Client.UploadRecipe store F jsonContent = .ok store1 ∧
      st1 = { store := store1, recipeCache := st.recipeCache.Delete F,
              recipesCache := st.recipesCache.Delete "all_recipes" } := by
  cases hbind : env.bindURL with
  | none => simp [saveRecipeHandler, hbind] at h
  | some url =>
  rcases getRecipe_cases caseTable env.world url st.store with hg | hg | ⟨recipe, filename, store, hg⟩
  · simp [saveRecipeHandler, hbind, hg] at h
  · simp [saveRecipeHandler, hbind, hg] at h
  · cases hm : env.marshal (assignLink recipe filename) with
    | error e => simp [saveRecipeHandler, hbind, hg, hm] at h
    | ok jsonContent =>
    cases hs : env.newS3 with
    | error e => simp [saveRecipeHandler, hbind, hg, hm, hs] at h
    | ok s3Client =>
    cases hu : s3Client.UploadRecipe store filename jsonContent with
    | error e => simp [saveRecipeHandler, hbind, hg, hm, hs, hu] at h
    | ok store1 =>
      simp [saveRecipeHandler, hbind, hg, hm, hs, hu] at h
      obtain ⟨hF, hst⟩ := h
      subst hF
      exact ⟨url, recipe, store, store1, jsonContent, s3Client, rfl, hg, hm, rfl, hu, hst.symm⟩

/-- C3. After a `/save-recipe` request that uploaded the recipe under `F` (the request
answered with `saved F`), the single-recipe cache has no item for `F` and the collection
cache has no item for `all_recipes`; the store holds under `F` the JSON marshalled during
the request, and the next `/get-recipe` for `F` misses the cache: it replies with that
JSON, or with status 500 when the store call fails. -/
theorem save_evicts_caches (caseTable : Char → Char) (env : SaveEnv) (st st1 : Server)
    (F : String) (h : saveRecipeHandler caseTable env st = (.saved F, st1)) :
    kvGet st1.recipeCache.items F = none
    ∧ kvGet st1.recipesCache.items "all_recipes" = none
    ∧ ∃ (recipe : Recipe) (jsonContent : Bytes),
        env.marshal recipe = .ok jsonContent
        ∧ kvGet st1.store.recipes F = some jsonContent
        ∧ ∀ (renv : ReadEnv) (recipeName : String), recipeName ++ ".json" = F →
            st1.recipeCache.Get renv.now F = none
            ∧ ((getRecipeHandler renv recipeName st1).1 = .data jsonContent ∨
                ∃ msg, (getRecipeHandler renv recipeName st1).1 = .error 500 msg)
            ∧ (∀ s3Client : CloudflareS3, renv.newS3 = .ok s3Client →
                s3Client.getRecipeErr F = none →
                (getRecipeHandler renv recipeName st1).1 = .data jsonContent) := by
  obtain ⟨url, recipe, store, store1, jsonContent, s3Client, -, -, hm, -, hu, hst⟩ :=
    saveRecipeHandler_saved caseTable env st st1 F h
  have hstore : kvGet st1.store.recipes F = some jsonContent := by
    cases hue : s3Client.uploadRecipeErr with
    | some e => simp [CloudflareS3.UploadRecipe, hue] at hu
    | none =>
      simp only [CloudflareS3.UploadRecipe, hue, Except.ok.injEq] at hu
      rw [hst, ← hu]
      exact kvGet_kvPut_same _ _ _
  have hitem : kvGet st1.recipeCache.items F = none := by
    rw [hst]
    exact kvGet_kvDelete_same _ _
  have hall : kvGet st1.recipesCache.items "all_recipes" = none := by
    rw [hst]
    exact kvGet_kvDelete_same _ _
  refine ⟨hitem, hall, assignLink recipe F, jsonContent, hm, hstore, ?_⟩
  intro renv recipeName hname
  subst hname
  have hmiss : st1.recipeCache.Get renv.now (recipeName ++ ".json") = none := by
    simp [Cache.Get, hitem]
  refine ⟨hmiss, ?_, ?_⟩
  · cases hs : renv.newS3 with
    | error e =>
      right
      exact ⟨"Failed to initialize S3 client", by simp [getRecipeHandler, hmiss, hs]⟩
    | ok s3Client2 =>
      cases hge : s3Client2.getRecipeErr (recipeName ++ ".json") with
      | some e =>
        right
        exact ⟨"Failed to fetch recipe", by
          simp [getRecipeHandler, hmiss, hs, CloudflareS3.GetRecipe, hge]⟩
      | none =>
        left
        simp [getRecipeHandler, hmiss, hs, CloudflareS3.GetRecipe, hge, hstore]
  · intro s3Client2 hs hge
    simp [getRecipeHandler, hmiss, hs, CloudflareS3.GetRecipe, hge, hstore]

theorem save_evicts_caches_witness :
    (kvGet staleServer.recipeCache.items "apple-pie.json" ≠ none
      ∧ kvGet staleServer.recipesCache.items "all_recipes" ≠ none
      ∧ saveRecipeHandler id (sampleSaveEnv "Apple Pie" "baking" imageOK) staleServer
          = (.saved "apple-pie.json", savedServer))
    ∧ kvGet savedServer.recipeCache.items "apple-pie.json" = none
    ∧ kvGet savedServer.recipesCache.items "all_recipes" = none :=
  have h := save_evicts_caches id (sampleSaveEnv "Apple Pie" "baking" imageOK) staleServer
    savedServer "apple-pie.json" (by decide)
  ⟨⟨by decide, by decide, by decide⟩, h.1, h.2.1⟩

/-! ## Reading one recipe -/

/-- C4. Let `b` be stored under `n + ".json"` and let the store be reachable. A
`/get-recipe` call for `n` that misses the cache replies with exactly `b` and puts `b`
into the single-recipe cache under `n + ".json"`; every later `/get-recipe` call for `n`
that is served from that cache item, in whatever state the server is by then, replies with
`b` and changes nothing; and calls within the expiration time of the cache are served
from it. -/
theorem getRecipe_round_trip (env : ReadEnv) (n : String) (b : Bytes) (st : Server)
    (s3Client : CloudflareS3)
    (hstore : kvGet st.store.recipes (n ++ ".json") = some b)
    (hmiss : st.recipeCache.Get env.now (n ++ ".json") = none)
    (hs3 : env.newS3 = .ok s3Client)
    (hget : s3Client.getRecipeErr (n ++ ".json") = none) :
    (getRecipeHandler env n st).1 = .data b
    ∧ (∃ e : Int, kvGet (getRecipeHandler env n st).2.recipeCache.items (n ++ ".json")
        = some { Object := b, Expiration := e })
    ∧ (∀ (env2 : ReadEnv) (st2 : Server),
        kvGet st2.recipeCache.items (n ++ ".json")
          = kvGet (getRecipeHandler env n st).2.recipeCache.items (n ++ ".json") →
        st2.recipeCache.Get env2.now (n ++ ".json") ≠ none →
        getRecipeHandler env2 n st2 = (.data b, st2))
    ∧ (∀ env2 : ReadEnv,
        0 < st.recipeCache.defaultExpiration →
        env2.now ≤ env.later + st.recipeCache.defaultExpiration →
        getRecipeHandler env2 n (getRecipeHandler env n st).2
          = (.data b, (getRecipeHandler env n st).2)) := by
  have hfetch : s3Client.GetRecipe st.store (n ++ ".json") = .ok b := by
    simp [CloudflareS3.GetRecipe, hget, hstore]
  have hrun : getRecipeHandler env n st = (.data b,
      { st with recipeCache := st.recipeCache.Set env.later (n ++ ".json") b DefaultExpiration }) := by
    simp [getRecipeHandler, hmiss, hs3, hfetch]
  have hitem : kvGet (getRecipeHandler env n st).2.recipeCache.items (n ++ ".json")
      = some { Object := b,
               Expiration := if st.recipeCache.defaultExpiration > 0
                 then env.later + st.recipeCache.defaultExpiration else 0 } := by
    rw [hrun]
    simp [Cache.Set, kvGet_kvPut_same]
  have hserved : ∀ (env2 : ReadEnv) (st2 : Server),
      kvGet st2.recipeCache.items (n ++ ".json")
        = kvGet (getRecipeHandler env n st).2.recipeCache.items (n ++ ".json") →
      st2.recipeCache.Get env2.now (n ++ ".json") ≠ none →
      getRecipeHandler env2 n st2 = (.data b, st2) := by
    intro env2 st2 hsame hhit
    rw [hitem] at hsame
    cases hc : st2.recipeCache.Get env2.now (n ++ ".json") with
    | none => exact absurd hc hhit
    | some cachedContent =>
      have hb : cachedContent = b := by
        unfold Cache.Get at hc
        rw [hsame] at hc
        by_cases hexp :
            (if st.recipeCache.defaultExpiration > 0
              then env.later + st.recipeCache.defaultExpiration else 0) > 0 ∧
            env2.now > (if st.recipeCache.defaultExpiration > 0
              then env.later + st.recipeCache.defaultExpiration else 0)
        · simp [hexp] at hc
        · simp only [hexp, if_false, Option.some.injEq] at hc
          exact hc.symm
      subst hb
      simp [getRecipeHandler, hc]
  refine ⟨by rw [hrun], ⟨_, hitem⟩, hserved, ?_⟩
  intro env2 hpos hle
  apply hserved env2 _ rfl
  simp only [Cache.Get, hitem, hpos, if_true]
  have hnot : ¬ (env.later + st.recipeCache.defaultExpiration > 0 ∧
      env2.now > env.later + st.recipeCache.defaultExpiration) := by
    intro hh
    omega
  simp [hnot]

theorem getRecipe_round_trip_witness :
    (kvGet (Server.start sampleStore).store.recipes ("leek-soup" ++ ".json") = some [2]
      ∧ (Server.start sampleStore).recipeCache.Get sampleReadEnv.now ("leek-soup" ++ ".json")
          = none
      ∧ sampleReadEnv.newS3 = .ok sampleS3
      ∧ sampleS3.getRecipeErr ("leek-soup" ++ ".json") = none)
    ∧ (getRecipeHandler sampleReadEnv "leek-soup" (Server.start sampleStore)).1 = .data [2]
    ∧ getRecipeHandler { sampleReadEnv with now := 2000, newS3 := .error "no credentials" }
        "leek-soup" (getRecipeHandler sampleReadEnv "leek-soup" (Server.start sampleStore)).2
        = (.data [2], (getRecipeHandler sampleReadEnv "leek-soup" (Server.start sampleStore)).2) :=
  have h := getRecipe_round_trip sampleReadEnv "leek-soup" [2] (Server.start sampleStore)
    sampleS3 (by decide) (by decide) rfl rfl
  ⟨⟨by decide, by decide, rfl, rfl⟩, h.1,
    h.2.2.2 { sampleReadEnv with now := 2000, newS3 := .error "no credentials" }
      (by decide) (by decide)⟩

end Recipes
